import Mathlib

/-!
Shallow embedding of `obsidian_pdf_converter.py` (class `ObsidianPDFConverter`):
the change-tracked PDF-to-Markdown conversion pipeline.  External library calls
(pdfplumber, LlamaParse, pypdf, hashlib) are modelled as function-valued fields
of the `Converter` structure; everything else is translated from the source.
-/

namespace TaoBite

/-! ### Association maps (Python dict semantics restricted to lookup/assign/delete) -/

/-- A Python `dict` with string keys, as an association list. -/
abbrev AMap (α : Type) := List (String × α)

/-- Dictionary lookup, `d.get(k)`; `(amFind d k).isSome` models `k in d`. -/
def amFind {α : Type} : AMap α → String → Option α
  | [], _ => none
  | (k, v) :: m, k' => if k = k' then some v else amFind m k'

/-- Dictionary assignment `d[k] = v` (replaces an existing binding in place). -/
def amInsert {α : Type} : AMap α → String → α → AMap α
  | [], k, v => [(k, v)]
  | (k', v') :: m, k, v => if k' = k then (k, v) :: m else (k', v') :: amInsert m k v

/-- Dictionary deletion `del d[k]` (a no-op when `k` is absent, matching the
guarded `if pdf_str in ...: del ...` idiom of the source). -/
def amErase {α : Type} : AMap α → String → AMap α
  | [], _ => []
  | (k', v') :: m, k => if k' = k then amErase m k else (k', v') :: amErase m k

/-! ### String helpers (ASCII models of the Python `str` operations used) -/

/-- `sep.join(xs)`. -/
def strJoin (sep : String) : List String → String
  | [] => ""
  | [x] => x
  | x :: y :: xs => x ++ sep ++ strJoin sep (y :: xs)

/-- `a.startswith(b)`: `b` is a string prefix of `a`. -/
def strStarts (a b : String) : Bool := b.toList.isPrefixOf a.toList

/-- `s.lower()` (ASCII case folding). -/
def strLower (s : String) : String := String.mk (s.toList.map Char.toLower)

/-- Whether `needle` occurs as a contiguous sublist of `hay`. -/
def charsInfixOf (needle : List Char) : List Char → Bool
  | [] => needle.isPrefixOf []
  | c :: rest => needle.isPrefixOf (c :: rest) || charsInfixOf needle rest

/-- `needle in hay`: substring containment. -/
def strContains (hay needle : String) : Bool := charsInfixOf needle.toList hay.toList

/-- `s.strip()` (ASCII whitespace). -/
def strTrim (s : String) : String :=
  String.mk (((s.toList.dropWhile Char.isWhitespace).reverse.dropWhile Char.isWhitespace).reverse)

/-- Code-point lexicographic comparison on character lists, the order Python's
`sorted` uses on `str`. -/
def charsLe : List Char → List Char → Bool
  | [], _ => true
  | _ :: _, [] => false
  | a :: as, b :: bs => if a < b then true else if b < a then false else charsLe as bs

/-- Code-point lexicographic comparison on strings. -/
def strLe (a b : String) : Bool := charsLe a.toList b.toList

/-- `strLe` as a relation, for use with `List.insertionSort`. -/
def strLeP (a b : String) : Prop := strLe a b = true

instance : DecidableRel strLeP := fun a b => Bool.decEq (strLe a b) true

/-! ### Resolved filesystem paths -/

/-- A fully resolved absolute path, as its segment list: `["v", "a.pdf"]` stands
for `/v/a.pdf`. -/
abbrev FsPath := List String

/-- `str(path)` for an absolute resolved path. -/
def pathStr (p : FsPath) : String := "/" ++ strJoin "/" p

/-- `str(rel)` for a relative path (`Path(".")` prints as `"."`). -/
def relPathStr (rel : FsPath) : String :=
  match rel with
  | [] => "."
  | _ => strJoin "/" rel

/-- `path.relative_to(root)`: strips `root`'s segments when they are a segment
prefix of `path`, and raises `ValueError` (modelled as `none`) otherwise. -/
def relativeTo (p root : FsPath) : Option FsPath :=
  if root.isPrefixOf p then some (p.drop root.length) else none

/-- Final path segment (`path.name`); `""` for the root path. -/
def lastSegment (p : FsPath) : String := p.getLastD ""

/-- Position of the last `'.'` in a file name, if any. -/
def lastDotIdx (cs : List Char) : Option Nat :=
  (List.range cs.length).foldl (fun acc i => if cs.getD i ' ' = '.' then some i else acc) none

/-- `path.stem` of pathlib: the name with its suffix removed, where the suffix
starts at the last dot provided that dot is neither the first nor the last
character of the name. -/
def stemOf (name : String) : String :=
  let cs := name.toList
  match lastDotIdx cs with
  | some i => if 0 < i ∧ i + 1 < cs.length then String.mk (cs.take i) else name
  | none => name

/-- `path.with_suffix(".md")` applied to a file name. -/
def withSuffixMd (name : String) : String := stemOf name ++ ".md"

/-- `path.with_suffix(".md")`: replace the final segment's suffix. -/
def withSuffixMdPath (p : FsPath) : FsPath := p.dropLast ++ [withSuffixMd (lastSegment p)]

/-! ### Tracking store data model -/

/-- Entry of `tracking_data["processed"]`. -/
structure ProcRecord where
  hash : String
  converted_date : String
  md_path : String
  category : String
  tags : List String
  method : String
deriving DecidableEq, Repr

/-- Entry of `tracking_data["failed"]`. -/
structure FailRecord where
  error : String
  timestamp : String
deriving DecidableEq, Repr

/-- The in-memory tracking store: the two partitions of the tracking JSON. -/
structure Tracking where
  processed : AMap ProcRecord
  failed : AMap FailRecord
deriving DecidableEq, Repr

/-- Best-effort PDF metadata as read by pypdf. -/
structure Metadata where
  pages : Option Nat
  title : Option String
  author : Option String
  subject : Option String
deriving DecidableEq, Repr

/-- The converter's configuration together with the behaviour of the external
libraries it delegates to.  Each library call is a pure function of the input
file's bytes (modelled as a `String`); an `Except.error` models a raised
exception inside the library. -/
structure Converter where
  /-- Resolved vault root (`self.vault_root`). -/
  vault_root : FsPath
  /-- Whether `self.llamaparse_parser` was initialized. -/
  llama_configured : Bool
  /-- `hashlib.md5` hex digest of a file's bytes (`_calculate_md5` body). -/
  md5 : String → String
  /-- External pdfplumber call: per-page `extract_text()` results (`none` when a
  page yields no text), or a raised exception. -/
  pdfplumber_pages : String → Except String (List (Option String))
  /-- External LlamaParse call: the texts of the returned documents, or a raised
  exception. -/
  llamaparse_docs : String → Except String (List String)
  /-- External pypdf metadata read, or a raised exception. -/
  pypdf_metadata : String → Except String Metadata

/-- Mutable world state: the filesystem (absolute path string to file bytes),
the in-memory tracking store, and its last flushed on-disk copy
(`_save_tracking_data` copies the former onto the latter). -/
structure World where
  files : AMap String
  tracking : Tracking
  disk : Tracking
deriving DecidableEq, Repr

deriving instance DecidableEq for Except

/-- Result of running a Python call: a returned value, or an uncaught exception
propagating out of it. -/
inductive PyResult (α : Type) where
  | ret (a : α)
  | exn (e : String)
deriving DecidableEq, Repr

/-! ### Tracking file loading (`_load_tracking_data`) -/

/-- A JSON value, as decoded by `json.load`. -/
inductive JsonVal where
  | null
  | boolean (b : Bool)
  | num (n : Int)
  | str (s : String)
  | arr (xs : List JsonVal)
  | obj (fields : List (String × JsonVal))

/-- Content of the persisted tracking file: absent, present but not valid JSON
(`json.load` raises `JSONDecodeError`), or a decoded JSON value. -/
inductive StoredFile where
  | absent
  | notJson (raw : String)
  | jsonOf (v : JsonVal)

/-- The empty two-partition store the converter initializes or falls back to:
`{"processed": {}, "failed": {}}`. -/
def emptyStoreJson : JsonVal := .obj [("processed", .obj []), ("failed", .obj [])]

def isObjVal : JsonVal → Bool
  | .obj _ => true
  | _ => false

/-- Whether a JSON value has the expected two-partition tracking structure: an
object with exactly the fields `"processed"` and `"failed"`, each an object. -/
def isTwoPartition (v : JsonVal) : Bool :=
  match v with
  | .obj fields =>
      decide (fields.length = 2) &&
      (match amFind fields "processed" with | some w => isObjVal w | none => false) &&
      (match amFind fields "failed" with | some w => isObjVal w | none => false)
  | _ => false

/-- `_load_tracking_data`: an absent file, or a file whose content raises
`json.JSONDecodeError`, yields the empty two-partition store; any successfully
decoded JSON value is returned unchanged. -/
def loadTrackingData : StoredFile → JsonVal
  | .absent => emptyStoreJson
  | .notJson _ => emptyStoreJson
  | .jsonOf v => v

/-! ### Hashing and the skip decision -/

/-- `_calculate_md5`: open the file and hash its bytes; a missing file raises. -/
def calculateMd5 (cfg : Converter) (files : AMap String) (p : FsPath) : Except String String :=
  match amFind files (pathStr p) with
  | some content => .ok (cfg.md5 content)
  | none => .error "FileNotFoundError"

/-- Exception text of `Path.relative_to` on failure. -/
def notRelativeMsg (p root : FsPath) : String :=
  "ValueError: " ++ pathStr p ++ " is not in the subpath of " ++ pathStr root

/-- `_should_process`: `(should_process, reason)`, or a raised exception when the
path is not relative to the vault root or the file cannot be read. -/
def shouldProcess (cfg : Converter) (w : World) (p : FsPath) : Except String (Bool × String) :=
  match relativeTo p cfg.vault_root with
  | none => .error (notRelativeMsg p cfg.vault_root)
  | some rel =>
    match calculateMd5 cfg w.files p with
    | .error e => .error e
    | .ok currentHash =>
      match amFind w.tracking.processed (relPathStr rel) with
      | some r =>
        if r.hash = currentHash then .ok (false, "Already processed (hash match)")
        else .ok (true, "File modified (hash changed)")
      | none =>
        match amFind w.tracking.failed (relPathStr rel) with
        | some _ => .ok (true, "Retry failed conversion")
        | none => .ok (true, "New file")

/-! ### Extraction with fallback -/

/-- Page marker emitted before each page's text. -/
def pageMarker (pageNum totalPages : Nat) : String :=
  "---\n### Page " ++ toString pageNum ++ " of " ++ toString totalPages ++ "\n"

/-- The `markdown_lines` accumulation: for each page (numbered from 1) whose
`extract_text()` result is truthy, a marker, the text, and `"\n"`. -/
def markdownLines (pages : List (Option String)) : List String :=
  let total := pages.length
  (pages.enumFrom 1).foldr
    (fun pt acc =>
      match pt.2 with
      | some s => if s = "" then acc else pageMarker pt.1 total :: s :: "\n" :: acc
      | none => acc) []

/-- `full_text = "\n".join(markdown_lines)`. -/
def fullTextOf (pages : List (Option String)) : String :=
  strJoin "\n" (markdownLines pages)

/-- Fallback metadata handling around the pypdf read: on an exception the
metadata degrades to `{"pages": fallbackPages}` and never blocks success. -/
def metadataOf (cfg : Converter) (content : String) (fallbackPages : Nat) : Metadata :=
  match cfg.pypdf_metadata content with
  | .ok m => m
  | .error _ => { pages := some fallbackPages, title := none, author := none, subject := none }

/-- `_extract_text_with_pdfplumber`: run the external per-page extraction,
assemble the markdown, and apply the 100-character quality gate on the stripped
text; then read metadata best-effort. -/
def extractWithPdfplumber (cfg : Converter) (content : String) :
    Except String (String × Metadata × String) :=
  match cfg.pdfplumber_pages content with
  | .error e => .error e
  | .ok pages =>
    let fullText := fullTextOf pages
    if (strTrim fullText).length < 100 then
      .error ("Extracted text too short (" ++ toString fullText.length ++
        " chars). Likely extraction failure.")
    else .ok (fullText, metadataOf cfg content pages.length, "pdfplumber")

/-- `_extract_text_with_llamaparse`: guard on configuration, run the external
call, join the document texts with `"\n\n"`, and apply the same quality gate. -/
def extractWithLlamaparse (cfg : Converter) (content : String) :
    Except String (String × Metadata × String) :=
  if cfg.llama_configured then
    match cfg.llamaparse_docs content with
    | .error e => .error e
    | .ok docs =>
      let fullText := strJoin "\n\n" docs
      if (strTrim fullText).length < 100 then
        .error ("LlamaParse extraction too short (" ++ toString fullText.length ++ " chars)")
      else .ok (fullText, metadataOf cfg content docs.length, "llamaparse")
  else .error "LlamaParse not available or not initialized"

/-- The try-primary / fallback-secondary orchestration inside `convert_pdf`:
on primary failure the secondary runs only when configured; when both fail the
raised error names both underlying failures; without a secondary the primary
error is re-raised. -/
def extractText (cfg : Converter) (content : String) :
    Except String (String × Metadata × String) :=
  match extractWithPdfplumber cfg content with
  | .ok r => .ok r
  | .error e1 =>
    if cfg.llama_configured then
      match extractWithLlamaparse cfg content with
      | .ok r => .ok r
      | .error e2 =>
        .error ("Both methods failed. pdfplumber: " ++ e1 ++ ", LlamaParse: " ++ e2)
    else .error e1

/-! ### Categorization, tagging, frontmatter -/

/-- `self.category_patterns`, in insertion order. -/
def categoryPatterns : List (String × String) :=
  [("knowledge/business breakdowns", "business-analysis"),
   ("knowledge/founders", "biography"),
   ("knowledge/invest like the best", "investment-research"),
   ("books", "books"),
   ("admin", "admin-legal"),
   ("legal", "admin-legal"),
   ("code", "code-documentation")]

/-- `self.notable_figures`. -/
def notableFigures : List String :=
  ["buffett", "warren buffett", "bezos", "jeff bezos",
   "musk", "elon musk", "jobs", "steve jobs", "gates", "bill gates",
   "graham", "paul graham", "thiel", "peter thiel", "zuckerberg"]

/-- `_categorize_from_path` applied to the path relative to the vault root:
first pattern occurring in the lowercased parent path wins, default
`"general"`. -/
def categorizeFromPath (rel : FsPath) : String :=
  let pathLower := strLower (relPathStr rel.dropLast)
  match categoryPatterns.find? (fun pc => strContains pathLower pc.1) with
  | some pc => pc.2
  | none => "general"

/-- Folder-name normalization in `_generate_tags`:
`part.lower().replace(" ", "-").replace("_", "-")`. -/
def normalizeTag (part : String) : String :=
  String.mk ((strLower part).toList.map
    (fun c => if c = ' ' then '-' else if c = '_' then '-' else c))

/-- The stoplist of generic folder names excluded from tagging. -/
def stoplist : List String := ["knowledge", "documents", "files"]

/-- The tags accumulated by `_generate_tags` before deduplication and sorting:
one normalized tag per parent-folder segment that is nonempty and outside the
stoplist, the category unless `"general"`, and a single `"notable-figure"`
sentinel when any notable figure occurs in the lowercased text.  (The source
accumulates them in a Python `set`; the order here is irrelevant after the
dedup and sort below.) -/
def rawTags (rel : FsPath) (textContent : String) (category : String) : List String :=
  let folderTags := rel.dropLast.filterMap (fun part =>
    let tag := normalizeTag part
    if tag ≠ "" ∧ tag ∉ stoplist then some tag else none)
  let withCat := if category ≠ "general" then folderTags ++ [category] else folderTags
  if notableFigures.any (fun f => strContains (strLower textContent) f) then
    withCat ++ ["notable-figure"]
  else withCat

/-- `_generate_tags` applied to the path relative to the vault root:
`sorted(list(tags))` of the accumulated tag set, under the code-point order
Python's `sorted` uses. -/
def generateTags (rel : FsPath) (textContent : String) (category : String) : List String :=
  List.insertionSort strLeP (rawTags rel textContent category).dedup

/-- `_generate_frontmatter`: the YAML header written ahead of the body. -/
def generateFrontmatter (stem relS : String) (md : Metadata) (category : String)
    (tags : List String) (conversionDate : String) : String :=
  let title := match md.title with | some t => if t = "" then stem else t | none => stem
  let l1 := ["---", "title: \"" ++ title ++ "\""]
  let l2 := match md.author with
    | some a => if a = "" then [] else ["author: \"" ++ a ++ "\""]
    | none => []
  let l3 := ["category: " ++ category]
  let l4 := [if tags.isEmpty then "tags: []"
             else "tags: [" ++ strJoin ", " tags ++ "]"]
  let l5 := ["source: pdf", "pdf_path: \"" ++ relS ++ "\"", "converted_date: " ++ conversionDate]
  let l6 := match md.pages with
    | some n => if n = 0 then [] else ["pages: " ++ toString n]
    | none => []
  strJoin "\n" (l1 ++ l2 ++ l3 ++ l4 ++ l5 ++ l6 ++ ["---\n"])

/-! ### `convert_pdf` -/

/-- The markdown artifact written for a converted document: frontmatter, a blank
line, and the extracted text. -/
def mkArtifact (p rel : FsPath) (txt : String) (md : Metadata)
    (now : String) : String :=
  let category := categorizeFromPath rel
  let tags := generateTags rel txt category
  generateFrontmatter (stemOf (lastSegment p)) (relPathStr rel) md category tags now
    ++ "\n" ++ txt

/-- The `tracking_data["processed"]` record written after a success; note the
hash field is computed from the file as re-read after the markdown write. -/
def mkProcRecord (cfg : Converter) (rel relMd : FsPath) (txt meth c2 now : String) :
    ProcRecord :=
  { hash := cfg.md5 c2, converted_date := now, md_path := relPathStr relMd,
    category := categorizeFromPath rel,
    tags := generateTags rel txt (categorizeFromPath rel), method := meth }

/-- The `try:` block of `convert_pdf` (lines 352-417): extraction with fallback,
categorization, tagging, frontmatter, the markdown write, and the success-side
tracking update with flush.  An `Except.error` is the exception caught by the
`except` clause; every failure point precedes the markdown write, so the error
case carries no world change. -/
def convertPdfTry (cfg : Converter) (w : World) (p : FsPath) (now : String) :
    Except String World :=
  match amFind w.files (pathStr p) with
  | none => .error "FileNotFoundError"
  | some content =>
    match extractText cfg content with
    | .error e => .error e
    | .ok (txt, md, meth) =>
      match relativeTo p cfg.vault_root with
      | none => .error (notRelativeMsg p cfg.vault_root)
      | some rel =>
        let files' := amInsert w.files (pathStr (withSuffixMdPath p))
          (mkArtifact p rel txt md now)
        match amFind files' (pathStr p) with
        | none => .error "FileNotFoundError"
        | some c2 =>
          match relativeTo (withSuffixMdPath p) cfg.vault_root with
          | none => .error (notRelativeMsg (withSuffixMdPath p) cfg.vault_root)
          | some relMd =>
            let t' : Tracking :=
              ⟨amInsert w.tracking.processed (relPathStr rel)
                 (mkProcRecord cfg rel relMd txt meth c2 now),
               amErase w.tracking.failed (relPathStr rel)⟩
            .ok ⟨files', t', t'⟩

/-- The world after the `except` branch of `convert_pdf`: the failure is
recorded under `key` with its error text and timestamp, the store is flushed
(`disk` copies `tracking`), and the files are untouched. -/
def failWorld (w : World) (key e now : String) : World :=
  ⟨w.files,
   ⟨w.tracking.processed, amInsert w.tracking.failed key ⟨e, now⟩⟩,
   ⟨w.tracking.processed, amInsert w.tracking.failed key ⟨e, now⟩⟩⟩

/-- The try/except stage of `convert_pdf`: on success return `True` with the
updated world; on a caught exception record a `failed` entry (error text and
timestamp), flush, and return `False` -- but the failure handler itself calls
`relative_to` and so re-raises on a path that is not under the root. -/
def convertPdfBody (cfg : Converter) (w : World) (p : FsPath) (now : String) :
    PyResult Bool × World :=
  match convertPdfTry cfg w p now with
  | .ok w' => (.ret true, w')
  | .error e =>
    match relativeTo p cfg.vault_root with
    | none => (.exn (notRelativeMsg p cfg.vault_root), w)
    | some rel => (.ret false, failWorld w (relPathStr rel) e now)

/-- `convert_pdf`: string-prefix vault containment check, then (unless forced)
the `_should_process` decision -- note that decision runs outside the `try:`
block, so its exceptions propagate uncaught -- then the try/except stage. -/
def convertPdf (cfg : Converter) (w : World) (p : FsPath) (force : Bool)
    (now : String) : PyResult Bool × World :=
  if strStarts (pathStr p) (pathStr cfg.vault_root) then
    if force then convertPdfBody cfg w p now
    else
      match shouldProcess cfg w p with
      | .error e => (.exn e, w)
      | .ok (sp, _r) => if sp then convertPdfBody cfg w p now else (.ret false, w)
  else (.ret false, w)

/-! ### `scan_vault` -/

/-- `self.skip_dirs`. -/
def skipDirs : List String := [".obsidian", "node_modules", ".git", "__pycache__"]

/-- Whether a found PDF lies in an excluded directory
(`any(skip_dir in pdf_path.parts ...)`). -/
def inSkipDir (p : FsPath) : Bool := skipDirs.any (fun d => p.contains d)

/-- The statistics dictionary accumulated by `scan_vault`. -/
structure ScanStats where
  total : Nat
  processed : Nat
  skipped : Nat
  failed : Nat
deriving DecidableEq, Repr

/-- The per-document accounting of `scan_vault`: a `True` return increments
`processed`; otherwise `skipped` when not forced, else `failed`. -/
def scanStep (force : Bool) (stats : ScanStats) (res : Bool) : ScanStats :=
  if res then { stats with processed := stats.processed + 1 }
  else if force then { stats with failed := stats.failed + 1 }
  else { stats with skipped := stats.skipped + 1 }

/-- The scan loop over the `rglob("*.pdf")` enumeration (taken as input):
excluded directories are skipped before counting; each remaining PDF is
converted in turn and accounted; an uncaught exception aborts the scan. -/
def scanVaultAux (cfg : Converter) (force : Bool) (now : String) :
    List FsPath → World → ScanStats → PyResult ScanStats × World
  | [], w, stats => (.ret stats, w)
  | p :: ps, w, stats =>
    if inSkipDir p then scanVaultAux cfg force now ps w stats
    else
      let stats1 := { stats with total := stats.total + 1 }
      match convertPdf cfg w p force now with
      | (.ret b, w') => scanVaultAux cfg force now ps w' (scanStep force stats1 b)
      | (.exn e, w') => (.exn e, w')

/-- `scan_vault` with the filesystem enumeration passed in. -/
def scanVault (cfg : Converter) (w : World) (pdfPaths : List FsPath) (force : Bool)
    (now : String) : PyResult ScanStats × World :=
  scanVaultAux cfg force now pdfPaths w ⟨0, 0, 0, 0⟩

/-- The per-document conversion outcomes of a scan, in order, over the paths
that survive the skip-directory filter (the documents' actual outcomes, used to
compare the accumulated counts against). -/
def convertOutcomes (cfg : Converter) (force : Bool) (now : String) :
    List FsPath → World → List (PyResult Bool)
  | [], _ => []
  | p :: ps, w =>
    if inSkipDir p then convertOutcomes cfg force now ps w
    else
      match convertPdf cfg w p force now with
      | (r, w') => r :: convertOutcomes cfg force now ps w'

/-- Whether a call returned (did not raise). -/
def isRet : PyResult Bool → Bool
  | .ret _ => true
  | .exn _ => false

/-- Whether a call returned `True`. -/
def isRetTrue : PyResult Bool → Bool
  | .ret b => b
  | .exn _ => false

/-- Whether a call returned `False`. -/
def isRetFalse : PyResult Bool → Bool
  | .ret b => !b
  | .exn _ => false

/-! ### Concrete instances used to exercise the model -/

/-- A page text longer than the 100-character quality-gate threshold. -/
def longTxt : String :=
  "aaaaaaaaaaaaaaaaaaaaaaaaaaaaaaaaaaaaaaaaaaaaaaaaaaaaaaaaaaaaaaaaaaaaaaaaaaaaaaaaaaaaaaaaaaaaaaaaaaaaaaaaaaaa"

/-- Vault `/v`, no fallback configured, extraction always raises. -/
def cfgBoth : Converter :=
  { vault_root := ["v"], llama_configured := false, md5 := fun c => c,
    pdfplumber_pages := fun _ => .error "plumber boom",
    llamaparse_docs := fun _ => .error "llama boom",
    pypdf_metadata := fun _ => .error "no metadata" }

/-- A vault whose file `/v/a.pdf` has bytes `"X"` while the tracking store holds
a stale success record for `a.pdf` with fingerprint `"Y"`. -/
def wBoth : World :=
  { files := [("/v/a.pdf", "X")],
    tracking := ⟨[("a.pdf", ⟨"Y", "d0", "a.md", "general", [], "pdfplumber"⟩)], []⟩,
    disk := ⟨[("a.pdf", ⟨"Y", "d0", "a.md", "general", [], "pdfplumber"⟩)], []⟩ }

/-- Extraction fails for bytes `"BAD"`, succeeds with a long page otherwise. -/
def cfgScan : Converter :=
  { vault_root := ["v"], llama_configured := false, md5 := fun c => c,
    pdfplumber_pages := fun c => if c = "BAD" then .error "plumber boom" else .ok [some longTxt],
    llamaparse_docs := fun _ => .error "llama boom",
    pypdf_metadata := fun _ => .error "no metadata" }

/-- One unprocessed PDF whose conversion will fail. -/
def wScanFail : World :=
  { files := [("/v/a.pdf", "BAD")], tracking := ⟨[], []⟩, disk := ⟨[], []⟩ }

/-- Two unprocessed PDFs: `a.pdf` will fail to convert, `b.pdf` will succeed. -/
def wScanMix : World :=
  { files := [("/v/a.pdf", "BAD"), ("/v/b.pdf", "GOOD")],
    tracking := ⟨[], []⟩, disk := ⟨[], []⟩ }

/-- Fallback configured; the primary returns one 10-character page (below the
quality gate) and the secondary raises. -/
def cfgGate : Converter :=
  { vault_root := ["v"], llama_configured := true, md5 := fun c => c,
    pdfplumber_pages := fun _ => .ok [some "shorttext."],
    llamaparse_docs := fun _ => .error "llama boom",
    pypdf_metadata := fun _ => .error "no metadata" }

/-- A vault where `a.pdf` has a `failed` tracking record and no success record. -/
def wRetry : World :=
  { files := [("/v/a.pdf", "X")],
    tracking := ⟨[], [("a.pdf", ⟨"old error", "t0"⟩)]⟩,
    disk := ⟨[], [("a.pdf", ⟨"old error", "t0"⟩)]⟩ }

/-- A fresh vault with a single convertible PDF at `/v/books/a.pdf`. -/
def wIdem : World :=
  { files := [("/v/books/a.pdf", "PDFBYTES")], tracking := ⟨[], []⟩, disk := ⟨[], []⟩ }

/-- Extraction always succeeds with a long page. -/
def cfgIdem : Converter :=
  { vault_root := ["v"], llama_configured := false, md5 := fun c => c,
    pdfplumber_pages := fun _ => .ok [some longTxt],
    llamaparse_docs := fun _ => .error "llama boom",
    pypdf_metadata := fun _ => .error "no metadata" }

/-- A file at `/vx/a.pdf`, outside the `/v` vault of `cfgBoth`. -/
def wOutside : World :=
  { files := [("/vx/a.pdf", "X")], tracking := ⟨[], []⟩, disk := ⟨[], []⟩ }

/-- A file at `/w/a.pdf`, outside the `/v` vault with no shared string prefix. -/
def wFarOutside : World :=
  { files := [("/w/a.pdf", "X")], tracking := ⟨[], []⟩, disk := ⟨[], []⟩ }

/-- Vault `/vault`, extraction always raises. -/
def cfgSib : Converter :=
  { vault_root := ["vault"], llama_configured := false, md5 := fun c => c,
    pdfplumber_pages := fun _ => .error "plumber boom",
    llamaparse_docs := fun _ => .error "llama boom",
    pypdf_metadata := fun _ => .error "no metadata" }

/-- A file in the sibling directory `/vaultx`, whose string form extends the
string form of the vault root `/vault`. -/
def wSib : World :=
  { files := [("/vaultx/doc.pdf", "X")], tracking := ⟨[], []⟩, disk := ⟨[], []⟩ }

/-! ## Lemmas about the embedding -/

theorem amFind_amInsert_self {α : Type} (m : AMap α) (k : String) (v : α) :
    amFind (amInsert m k v) k = some v := by
  induction m with
  | nil => simp [amInsert, amFind]
  | cons q m ih =>
    obtain ⟨k', v'⟩ := q
    by_cases h : k' = k
    · simp [amInsert, h, amFind]
    · simp only [amInsert, if_neg h, amFind]
      exact ih

theorem amFind_amErase_self {α : Type} (m : AMap α) (k : String) :
    amFind (amErase m k) k = none := by
  induction m with
  | nil => simp [amErase, amFind]
  | cons q m ih =>
    obtain ⟨k', v'⟩ := q
    by_cases h : k' = k
    · simp [amErase, h, ih]
    · simp only [amErase, if_neg h, amFind]
      exact ih

theorem charsLe_iff_not_lex : ∀ as bs : List Char,
    charsLe as bs = true ↔ ¬ List.Lex (· < ·) bs as
  | [], bs => by
    refine iff_of_true rfl (fun h => ?_)
    cases h
  | a :: as, [] => by
    refine iff_of_false (by simp [charsLe]) (fun hn => hn List.Lex.nil)
  | a :: as, b :: bs => by
    by_cases hab : a < b
    · refine iff_of_true (by simp [charsLe, hab]) (fun h => ?_)
      cases h with
      | cons h' => exact absurd hab (lt_irrefl _)
      | rel h' => exact absurd h' (lt_asymm hab)
    · by_cases hba : b < a
      · refine iff_of_false (by simp [charsLe, hab, hba]) (fun hn => hn (List.Lex.rel hba))
      · have heq : a = b := le_antisymm (not_lt.mp hba) (not_lt.mp hab)
        subst heq
        have hrec := charsLe_iff_not_lex as bs
        constructor
        · intro h hl
          simp only [charsLe, lt_irrefl, if_false] at h
          cases hl with
          | cons h' => exact (hrec.mp h) h'
          | rel h' => exact absurd h' (lt_irrefl _)
        · intro h
          simp only [charsLe, lt_irrefl, if_false]
          exact hrec.mpr (fun hl => h (List.Lex.cons hl))

theorem strLe_iff (a b : String) : strLe a b = true ↔ a ≤ b := by
  rw [← not_lt, String.lt_iff_toList_lt]
  exact charsLe_iff_not_lex a.toList b.toList

theorem strLeP_total (a b : String) : strLeP a b ∨ strLeP b a := by
  unfold strLeP
  rcases le_total a b with h | h
  · exact Or.inl ((strLe_iff a b).mpr h)
  · exact Or.inr ((strLe_iff b a).mpr h)

theorem strLeP_trans (a b c : String) (hab : strLeP a b) (hbc : strLeP b c) : strLeP a c :=
  (strLe_iff a c).mpr (le_trans ((strLe_iff a b).mp hab) ((strLe_iff b c).mp hbc))

/-- Inversion of a successful `try:` block of `convert_pdf`: the file was read,
extraction succeeded, the path was relative to the root, and the resulting
world is exactly the post-write, post-update, flushed state. -/
theorem convertPdfTry_ok_inv (cfg : Converter) (w : World) (p : FsPath) (now : String)
    (w' : World) (h : convertPdfTry cfg w p now = .ok w') :
    ∃ content txt md meth rel c2 relMd,
      amFind w.files (pathStr p) = some content ∧
      extractText cfg content = .ok (txt, md, meth) ∧
      relativeTo p cfg.vault_root = some rel ∧
      amFind (amInsert w.files (pathStr (withSuffixMdPath p)) (mkArtifact p rel txt md now))
        (pathStr p) = some c2 ∧
      relativeTo (withSuffixMdPath p) cfg.vault_root = some relMd ∧
      w' = ⟨amInsert w.files (pathStr (withSuffixMdPath p)) (mkArtifact p rel txt md now),
            ⟨amInsert w.tracking.processed (relPathStr rel)
               (mkProcRecord cfg rel relMd txt meth c2 now),
             amErase w.tracking.failed (relPathStr rel)⟩,
            ⟨amInsert w.tracking.processed (relPathStr rel)
               (mkProcRecord cfg rel relMd txt meth c2 now),
             amErase w.tracking.failed (relPathStr rel)⟩⟩ := by
  unfold convertPdfTry at h
  rcases hcontent : amFind w.files (pathStr p) with _ | content
  · rw [hcontent] at h; exact Except.noConfusion h
  simp only [hcontent] at h
  rcases hext : extractText cfg content with e | val
  · rw [hext] at h; exact Except.noConfusion h
  obtain ⟨txt, md, meth⟩ := val
  simp only [hext] at h
  rcases hrel : relativeTo p cfg.vault_root with _ | rel
  · rw [hrel] at h; exact Except.noConfusion h
  simp only [hrel] at h
  rcases hc2 : amFind (amInsert w.files (pathStr (withSuffixMdPath p))
      (mkArtifact p rel txt md now)) (pathStr p) with _ | c2
  · rw [hc2] at h; exact Except.noConfusion h
  simp only [hc2] at h
  rcases hrelMd : relativeTo (withSuffixMdPath p) cfg.vault_root with _ | relMd
  · rw [hrelMd] at h; exact Except.noConfusion h
  simp only [hrelMd, Except.ok.injEq] at h
  exact ⟨content, txt, md, meth, rel, c2, relMd, rfl, hext, rfl, hc2, rfl, h.symm⟩

/-! ## Claim theorems -/

/-- C7 (counterexample): the value `[]` is well-formed JSON that is not the
expected two-partition structure, yet `_load_tracking_data` returns it
unchanged instead of resetting to the empty store -- only a `JSONDecodeError`
triggers the reset. -/
theorem c7_counterexample :
    isTwoPartition (JsonVal.arr []) = false ∧
    loadTrackingData (StoredFile.jsonOf (JsonVal.arr [])) ≠ emptyStoreJson := by
  refine ⟨rfl, fun h => ?_⟩
  rw [loadTrackingData, emptyStoreJson] at h
  exact JsonVal.noConfusion h

/-- C7 (amended): loading resets to the empty two-partition store exactly when
the tracking file is absent or its content fails JSON parsing; successfully
decoded JSON content is returned as-is, whatever its shape. -/
theorem c7_theorem :
    loadTrackingData StoredFile.absent = emptyStoreJson ∧
    (∀ raw, loadTrackingData (StoredFile.notJson raw) = emptyStoreJson) ∧
    (∀ v, loadTrackingData (StoredFile.jsonOf v) = v) :=
  ⟨rfl, fun _ => rfl, fun _ => rfl⟩

/-- C8 (counterexample): `/vx/a.pdf` is not contained in the vault root `/v`
(`relative_to` raises), yet `convert_pdf` does not return the `False` rejection:
the string-prefix containment check passes and the `_should_process` call
raises an uncaught `ValueError`. -/
theorem c8_counterexample :
    relativeTo ["vx", "a.pdf"] cfgBoth.vault_root = none ∧
    (convertPdf cfgBoth wOutside ["vx", "a.pdf"] false "t1").1 =
      .exn (notRelativeMsg ["vx", "a.pdf"] cfgBoth.vault_root) ∧
    (convertPdf cfgBoth wOutside ["vx", "a.pdf"] false "t1").1 ≠ .ret false := by
  refine ⟨by decide, by decide, ?_⟩
  intro h
  have h2 : (convertPdf cfgBoth wOutside ["vx", "a.pdf"] false "t1").1 =
      .exn (notRelativeMsg ["vx", "a.pdf"] cfgBoth.vault_root) := by decide
  rw [h] at h2
  exact PyResult.noConfusion h2

/-- C8 (amended): for every input path whose resolved string form does not
extend the vault root's string form, `convert_pdf` returns `False` with the
world -- tracking store included -- completely untouched, before any extraction
is attempted. -/
theorem c8_theorem (cfg : Converter) (w : World) (p : FsPath) (force : Bool)
    (now : String) (h : strStarts (pathStr p) (pathStr cfg.vault_root) = false) :
    convertPdf cfg w p force now = (.ret false, w) := by
  unfold convertPdf
  rw [h]
  rfl

/-- C8 witness: a concrete path with no shared string prefix is cleanly
rejected. -/
theorem c8_witness : convertPdf cfgBoth wFarOutside ["w", "a.pdf"] false "t1" =
    (.ret false, wFarOutside) :=
  c8_theorem cfgBoth wFarOutside ["w", "a.pdf"] false "t1" (by decide)

/-- C10: the vault-containment check is a string-prefix test: `/vaultx/doc.pdf`
is outside the root `/vault` but its string form extends the root's string
form, so the check passes and `convert_pdf` raises an uncaught `ValueError`
from computing the path relative to the root, instead of returning `False`. -/
theorem c10_theorem :
    strStarts (pathStr ["vaultx", "doc.pdf"]) (pathStr cfgSib.vault_root) = true ∧
    relativeTo ["vaultx", "doc.pdf"] cfgSib.vault_root = none ∧
    (convertPdf cfgSib wSib ["vaultx", "doc.pdf"] false "t1").1 =
      .exn (notRelativeMsg ["vaultx", "doc.pdf"] cfgSib.vault_root) := by
  refine ⟨by decide, by decide, by decide⟩

/-- C1 (counterexample): a modified, previously succeeded file whose
re-conversion fails ends up in both partitions at once: the failure records a
`failed` entry but leaves the stale `processed` entry in place. -/
theorem c1_counterexample :
    (convertPdf cfgBoth wBoth ["v", "a.pdf"] false "t1").1 = .ret false ∧
    (amFind (convertPdf cfgBoth wBoth ["v", "a.pdf"] false "t1").2.tracking.processed
      "a.pdf").isSome = true ∧
    (amFind (convertPdf cfgBoth wBoth ["v", "a.pdf"] false "t1").2.tracking.failed
      "a.pdf").isSome = true := by
  refine ⟨by decide, by decide, by decide⟩

/-- C1 (amended): after the try/except stage of `convert_pdf` on a document
under the root, a success leaves the path in `processed` and removes it from
`failed` (mutual exclusion holds on the success side); a failure adds the path
to `failed` but leaves the `processed` partition unchanged, so a path with a
prior success record remains in both partitions. -/
theorem c1_theorem (cfg : Converter) (w : World) (p rel : FsPath) (now : String)
    (hrel : relativeTo p cfg.vault_root = some rel) :
    (∀ w', convertPdfBody cfg w p now = (.ret true, w') →
       (amFind w'.tracking.processed (relPathStr rel)).isSome = true ∧
       amFind w'.tracking.failed (relPathStr rel) = none) ∧
    (∀ w', convertPdfBody cfg w p now = (.ret false, w') →
       (amFind w'.tracking.failed (relPathStr rel)).isSome = true ∧
       w'.tracking.processed = w.tracking.processed) := by
  constructor
  · intro w' h
    unfold convertPdfBody at h
    rcases htry : convertPdfTry cfg w p now with e | w''
    · rw [htry] at h
      simp only [hrel] at h
      simp at h
    · rw [htry] at h
      simp only [Prod.mk.injEq, PyResult.ret.injEq, true_and] at h
      obtain ⟨content, txt, md, meth, rel2, c2, relMd, _, _, hrel2, _, _, hw⟩ :=
        convertPdfTry_ok_inv cfg w p now w'' htry
      rw [hrel] at hrel2
      injection hrel2 with hr
      subst hr
      subst h
      subst hw
      refine ⟨?_, amFind_amErase_self _ _⟩
      rw [amFind_amInsert_self]
      rfl
  · intro w' h
    unfold convertPdfBody at h
    rcases htry : convertPdfTry cfg w p now with e | w''
    · rw [htry] at h
      simp only [hrel, Prod.mk.injEq, PyResult.ret.injEq, true_and] at h
      subst h
      refine ⟨?_, rfl⟩
      unfold failWorld
      rw [amFind_amInsert_self]
      rfl
    · rw [htry] at h
      simp at h

/-- C5: on any failure inside the `try:` block (extraction or rendering) for a
document under the root, `convert_pdf` returns `False` having recorded a
`failed` entry carrying the error description and the timestamp, flushed the
tracking store to disk, and left the filesystem -- in particular the output
markdown artifact -- untouched; the same holds entered through `convert_pdf`
with `force`, or without `force` when the skip decision said to process. -/
theorem c5_theorem (cfg : Converter) (w : World) (p rel : FsPath) (now e : String)
    (hrel : relativeTo p cfg.vault_root = some rel)
    (htry : convertPdfTry cfg w p now = .error e) :
    convertPdfBody cfg w p now = (.ret false, failWorld w (relPathStr rel) e now) ∧
    amFind (failWorld w (relPathStr rel) e now).tracking.failed (relPathStr rel) =
      some ⟨e, now⟩ ∧
    (failWorld w (relPathStr rel) e now).disk =
      (failWorld w (relPathStr rel) e now).tracking ∧
    (failWorld w (relPathStr rel) e now).files = w.files ∧
    (strStarts (pathStr p) (pathStr cfg.vault_root) = true →
       convertPdf cfg w p true now = (.ret false, failWorld w (relPathStr rel) e now)) ∧
    (∀ r, strStarts (pathStr p) (pathStr cfg.vault_root) = true →
       shouldProcess cfg w p = .ok (true, r) →
       convertPdf cfg w p false now = (.ret false, failWorld w (relPathStr rel) e now)) := by
  have hbody : convertPdfBody cfg w p now =
      (.ret false, failWorld w (relPathStr rel) e now) := by
    unfold convertPdfBody
    rw [htry, hrel]
  refine ⟨hbody, amFind_amInsert_self _ _ _, rfl, rfl, ?_, ?_⟩
  · intro hpre
    unfold convertPdf
    rw [hpre]
    simpa using hbody
  · intro r hpre hsp
    unfold convertPdf
    rw [hpre, hsp]
    simpa using hbody

/-- C1 witness: the failure half of the partition statement, at the concrete
vault of the counterexample. -/
theorem c1_witness :
    (amFind ((convertPdfBody cfgBoth wBoth ["v", "a.pdf"] "t1").2).tracking.failed
      (relPathStr ["a.pdf"])).isSome = true ∧
    ((convertPdfBody cfgBoth wBoth ["v", "a.pdf"] "t1").2).tracking.processed =
      wBoth.tracking.processed := by
  have T := c1_theorem cfgBoth wBoth ["v", "a.pdf"] ["a.pdf"] "t1" (by decide)
  have hb : convertPdfBody cfgBoth wBoth ["v", "a.pdf"] "t1" =
      (.ret false, (convertPdfBody cfgBoth wBoth ["v", "a.pdf"] "t1").2) := by decide
  exact T.2 _ hb

/-- C5 witness: a concrete extraction failure records the error and timestamp,
flushes, and leaves the files untouched, both at the try/except stage and
through `convert_pdf` itself. -/
theorem c5_witness :
    convertPdfBody cfgBoth wBoth ["v", "a.pdf"] "t1" =
      (.ret false, failWorld wBoth (relPathStr ["a.pdf"]) "plumber boom" "t1") ∧
    convertPdf cfgBoth wBoth ["v", "a.pdf"] false "t1" =
      (.ret false, failWorld wBoth (relPathStr ["a.pdf"]) "plumber boom" "t1") := by
  have T := c5_theorem cfgBoth wBoth ["v", "a.pdf"] ["a.pdf"] "t1" "plumber boom"
    (by decide) (by decide)
  exact ⟨T.1, T.2.2.2.2.2 "File modified (hash changed)" (by decide) (by decide)⟩

/-- C4: `_should_process` realizes the decision table, read in order, for a
readable file under the vault root: a succeeded record with matching
fingerprint skips as unchanged; a succeeded record with a different
fingerprint processes as modified; otherwise a failed record processes as
retry regardless of fingerprint; otherwise the file processes as new; and
`force` bypasses the decision entirely, going straight to processing. -/
theorem c4_theorem (cfg : Converter) (w : World) (p rel : FsPath) (content : String)
    (hrel : relativeTo p cfg.vault_root = some rel)
    (hfile : amFind w.files (pathStr p) = some content) :
    (∀ r, amFind w.tracking.processed (relPathStr rel) = some r →
       r.hash = cfg.md5 content →
       shouldProcess cfg w p = .ok (false, "Already processed (hash match)")) ∧
    (∀ r, amFind w.tracking.processed (relPathStr rel) = some r →
       r.hash ≠ cfg.md5 content →
       shouldProcess cfg w p = .ok (true, "File modified (hash changed)")) ∧
    (∀ fr, amFind w.tracking.processed (relPathStr rel) = none →
       amFind w.tracking.failed (relPathStr rel) = some fr →
       shouldProcess cfg w p = .ok (true, "Retry failed conversion")) ∧
    (amFind w.tracking.processed (relPathStr rel) = none →
       amFind w.tracking.failed (relPathStr rel) = none →
       shouldProcess cfg w p = .ok (true, "New file")) ∧
    (∀ now, strStarts (pathStr p) (pathStr cfg.vault_root) = true →
       convertPdf cfg w p true now = convertPdfBody cfg w p now) := by
  refine ⟨?_, ?_, ?_, ?_, ?_⟩
  · intro r hp hh
    unfold shouldProcess calculateMd5
    simp only [hrel, hfile, hp]
    rw [if_pos hh]
  · intro r hp hh
    unfold shouldProcess calculateMd5
    simp only [hrel, hfile, hp]
    rw [if_neg hh]
  · intro fr hp hf
    unfold shouldProcess calculateMd5
    simp only [hrel, hfile, hp, hf]
  · intro hp hf
    unfold shouldProcess calculateMd5
    simp only [hrel, hfile, hp, hf]
  · intro now hpre
    unfold convertPdf
    rw [hpre]
    simp

/-- C4 witness: the retry row and the force bypass, at a concrete vault whose
store holds only a `failed` record for the file. -/
theorem c4_witness :
    shouldProcess cfgScan wRetry ["v", "a.pdf"] = .ok (true, "Retry failed conversion") ∧
    convertPdf cfgScan wRetry ["v", "a.pdf"] true "t1" =
      convertPdfBody cfgScan wRetry ["v", "a.pdf"] "t1" := by
  have T := c4_theorem cfgScan wRetry ["v", "a.pdf"] ["a.pdf"] "X" (by decide) (by decide)
  exact ⟨T.2.2.1 ⟨"old error", "t0"⟩ (by decide) (by decide), T.2.2.2.2 "t1" (by decide)⟩

/-- C3: the quality gate treats a primary extraction whose assembled text is
shorter than 100 characters after stripping as a failure even though the
underlying call raised no error; on primary failure with the secondary
configured, the secondary's result decides the outcome; and when both fail the
operation fails with a message containing both underlying error texts. -/
theorem c3_theorem (cfg : Converter) (content : String) :
    (∀ pages, cfg.pdfplumber_pages content = .ok pages →
       (strTrim (fullTextOf pages)).length < 100 →
       extractWithPdfplumber cfg content =
         .error ("Extracted text too short (" ++ toString (fullTextOf pages).length ++
           " chars). Likely extraction failure.")) ∧
    (∀ e1, extractWithPdfplumber cfg content = .error e1 → cfg.llama_configured = true →
       (∀ r, extractWithLlamaparse cfg content = .ok r →
          extractText cfg content = .ok r) ∧
       (∀ e2, extractWithLlamaparse cfg content = .error e2 →
          extractText cfg content =
            .error ("Both methods failed. pdfplumber: " ++ e1 ++ ", LlamaParse: " ++ e2))) ∧
    (∀ e1 e2, extractWithPdfplumber cfg content = .error e1 → cfg.llama_configured = true →
       extractWithLlamaparse cfg content = .error e2 →
       ∃ msg, extractText cfg content = .error msg ∧
         e1.toList <:+: msg.toList ∧ e2.toList <:+: msg.toList) := by
  have hb : ∀ e1, extractWithPdfplumber cfg content = .error e1 →
      cfg.llama_configured = true →
      (∀ r, extractWithLlamaparse cfg content = .ok r →
         extractText cfg content = .ok r) ∧
      (∀ e2, extractWithLlamaparse cfg content = .error e2 →
         extractText cfg content =
           .error ("Both methods failed. pdfplumber: " ++ e1 ++ ", LlamaParse: " ++ e2)) := by
    intro e1 he1 hconf
    constructor
    · intro r hok
      unfold extractText
      simp only [he1, hconf, if_true, hok]
    · intro e2 he2
      unfold extractText
      simp only [he1, hconf, if_true, he2]
  refine ⟨?_, hb, ?_⟩
  · intro pages hpg hlt
    unfold extractWithPdfplumber
    simp only [hpg]
    rw [if_pos hlt]
  · intro e1 e2 he1 hconf he2
    refine ⟨"Both methods failed. pdfplumber: " ++ e1 ++ ", LlamaParse: " ++ e2,
      (hb e1 he1 hconf).2 e2 he2, ?_, ?_⟩
    · refine ⟨"Both methods failed. pdfplumber: ".toList,
        (", LlamaParse: " ++ e2).toList, ?_⟩
      simp only [String.toList, String.data_append, List.append_assoc]
    · refine ⟨("Both methods failed. pdfplumber: " ++ e1 ++ ", LlamaParse: ").toList,
        [], ?_⟩
      simp only [String.toList, String.data_append, List.append_assoc, List.append_nil]

/-- The skip case of `_should_process`: a succeeded record whose stored hash
matches the current file hash yields `(False, "Already processed (hash match)")`. -/
theorem shouldProcess_skip (cfg : Converter) (w : World) (p rel : FsPath)
    (content : String) (r : ProcRecord)
    (hrel : relativeTo p cfg.vault_root = some rel)
    (hfile : amFind w.files (pathStr p) = some content)
    (hp : amFind w.tracking.processed (relPathStr rel) = some r)
    (hh : r.hash = cfg.md5 content) :
    shouldProcess cfg w p = .ok (false, "Already processed (hash match)") := by
  unfold shouldProcess calculateMd5
  simp only [hrel, hfile, hp]
  rw [if_pos hh]

/-- A skip decision makes `convert_pdf` return `False` with the world
untouched. -/
theorem convertPdf_skip (cfg : Converter) (w : World) (p : FsPath) (now : String)
    (hpre : strStarts (pathStr p) (pathStr cfg.vault_root) = true)
    (hsp : shouldProcess cfg w p = .ok (false, "Already processed (hash match)")) :
    convertPdf cfg w p false now = (.ret false, w) := by
  unfold convertPdf
  rw [hpre, hsp]
  simp

/-- C6: idempotence -- whenever a run of `convert_pdf` (without force) succeeds,
running it again on the unchanged world skips: it returns `False` and leaves
the whole world, in particular the markdown artifact and the tracking record
written by the first run, exactly as the first run left them. -/
theorem c6_theorem (cfg : Converter) (w w1 : World) (p : FsPath) (n1 n2 : String)
    (h : convertPdf cfg w p false n1 = (.ret true, w1)) :
    convertPdf cfg w1 p false n2 = (.ret false, w1) := by
  unfold convertPdf at h
  by_cases hpre : strStarts (pathStr p) (pathStr cfg.vault_root) = true
  case neg =>
    rw [eq_false_of_ne_true hpre] at h
    simp at h
  case pos =>
    rw [hpre] at h
    simp only [eq_self_iff_true, if_true, Bool.false_eq_true, if_false] at h
    rcases hsp : shouldProcess cfg w p with e | pr
    · rw [hsp] at h
      simp at h
    · obtain ⟨sp, rsn⟩ := pr
      rw [hsp] at h
      cases sp
      · simp at h
      · simp only [eq_self_iff_true, if_true] at h
        unfold convertPdfBody at h
        rcases htry : convertPdfTry cfg w p n1 with e | w2
        · rw [htry] at h
          rcases hr2 : relativeTo p cfg.vault_root with _ | rel2 <;>
            simp only [hr2] at h <;> simp at h
        · rw [htry] at h
          simp only [Prod.mk.injEq, PyResult.ret.injEq, true_and] at h
          subst h
          obtain ⟨content, txt, md, meth, rel, c2, relMd,
            hcontent, hext, hrel, hc2, hrelMd, hw⟩ :=
            convertPdfTry_ok_inv cfg w p n1 w2 htry
          have hsp2 : shouldProcess cfg w2 p =
              .ok (false, "Already processed (hash match)") := by
            subst hw
            exact shouldProcess_skip cfg _ p rel c2
              (mkProcRecord cfg rel relMd txt meth c2 n1) hrel hc2
              (amFind_amInsert_self _ _ _) rfl
          exact convertPdf_skip cfg w2 p n2 hpre hsp2

set_option maxRecDepth 10000 in
/-- C6 witness: a concrete successful conversion followed by a second run on
the unchanged vault, which skips and leaves the world identical. -/
theorem c6_witness :
    convertPdf cfgIdem ((convertPdf cfgIdem wIdem ["v", "books", "a.pdf"] false "t1").2)
      ["v", "books", "a.pdf"] false "t2" =
    (.ret false, (convertPdf cfgIdem wIdem ["v", "books", "a.pdf"] false "t1").2) := by
  have h : convertPdf cfgIdem wIdem ["v", "books", "a.pdf"] false "t1" =
      (.ret true, (convertPdf cfgIdem wIdem ["v", "books", "a.pdf"] false "t1").2) := by
    decide
  exact c6_theorem cfgIdem wIdem _ ["v", "books", "a.pdf"] "t1" "t2" h

/-- C3 witness: a 10-character page trips the gate, the configured secondary
raises, and the combined error message contains both failure texts. -/
theorem c3_witness :
    ∃ msg, extractText cfgGate "c" = .error msg ∧
      ("Extracted text too short (" ++ toString (fullTextOf [some "shorttext."]).length ++
        " chars). Likely extraction failure.").toList <:+: msg.toList ∧
      "llama boom".toList <:+: msg.toList := by
  have T := c3_theorem cfgGate "c"
  have he1 := T.1 [some "shorttext."] (by decide) (by decide)
  exact T.2.2 _ "llama boom" he1 (by decide) (by decide)

/-- Accounting of the scan loop relative to the actual per-document outcomes,
for scans in which every conversion returns (none raises). -/
theorem scanVaultAux_spec (cfg : Converter) (force : Bool) (now : String)
    (paths : List FsPath) :
    ∀ (w : World) (stats : ScanStats),
      (convertOutcomes cfg force now paths w).all isRet = true →
      ∃ w', scanVaultAux cfg force now paths w stats =
        (.ret ⟨stats.total + (convertOutcomes cfg force now paths w).length,
               stats.processed + (convertOutcomes cfg force now paths w).countP isRetTrue,
               stats.skipped +
                 (if force then 0
                  else (convertOutcomes cfg force now paths w).countP isRetFalse),
               stats.failed +
                 (if force then (convertOutcomes cfg force now paths w).countP isRetFalse
                  else 0)⟩,
         w') := by
  induction paths with
  | nil =>
    intro w stats _
    refine ⟨w, ?_⟩
    simp [scanVaultAux, convertOutcomes]
  | cons p ps ih =>
    intro w stats hok
    by_cases hskip : inSkipDir p = true
    · simp only [scanVaultAux, convertOutcomes, hskip, eq_self_iff_true, if_true]
        at hok ⊢
      exact ih w stats hok
    · simp only [scanVaultAux, convertOutcomes, eq_false_of_ne_true hskip,
        Bool.false_eq_true, if_false] at hok ⊢
      rcases hconv : convertPdf cfg w p force now with ⟨r, w2⟩
      rw [hconv] at hok
      cases r with
      | exn e =>
        simp [isRet] at hok
      | ret b =>
        simp only [List.all_cons, Bool.and_eq_true] at hok
        obtain ⟨-, hok2⟩ := hok
        obtain ⟨w', hw⟩ := ih w2 (scanStep force { stats with total := stats.total + 1 } b) hok2
        refine ⟨w', ?_⟩
        show scanVaultAux cfg force now ps w2
          (scanStep force { stats with total := stats.total + 1 } b) = _
        rw [hw]
        simp only [Prod.mk.injEq, PyResult.ret.injEq, and_true]
        cases b <;> cases force <;>
          simp [scanStep, isRetTrue, isRetFalse, List.countP_cons, ScanStats.mk.injEq] <;>
          omega

/-- C2 (counterexample): a scan without force over a single PDF whose
conversion fails -- the failure is recorded in the failed partition of the
store -- reports skipped = 1 and failed = 0: the failed count does not count
the document whose conversion failed. -/
theorem c2_counterexample :
    (scanVault cfgScan wScanFail [["v", "a.pdf"]] false "t1").1 =
      .ret ⟨1, 0, 1, 0⟩ ∧
    (amFind ((scanVault cfgScan wScanFail [["v", "a.pdf"]] false "t1").2).tracking.failed
      "a.pdf").isSome = true := by
  refine ⟨by decide, by decide⟩

/-- C2 (amended): for every scan in which no conversion raises, the counts
satisfy: `total` is the number of eligible PDFs (the enumeration minus the
skip-directory exclusions), `processed` is the number of documents whose
conversion returned `True`, and every conversion that returned `False` -- a
fingerprint skip and a recorded failure alike -- is counted under `skipped`
when force is off and under `failed` when force is on; the scan always runs to
completion over all eligible documents, so a single document's failure does
not halt it. -/
theorem c2_theorem (cfg : Converter) (w : World) (paths : List FsPath)
    (force : Bool) (now : String)
    (hok : (convertOutcomes cfg force now paths w).all isRet = true) :
    ∃ w', scanVault cfg w paths force now =
      (.ret ⟨(convertOutcomes cfg force now paths w).length,
             (convertOutcomes cfg force now paths w).countP isRetTrue,
             (if force then 0 else (convertOutcomes cfg force now paths w).countP isRetFalse),
             (if force then (convertOutcomes cfg force now paths w).countP isRetFalse
              else 0)⟩, w') := by
  have T := scanVaultAux_spec cfg force now paths w ⟨0, 0, 0, 0⟩ hok
  simpa [scanVault] using T

set_option maxRecDepth 10000 in
/-- C2 witness: a two-document scan where the first conversion fails and the
second succeeds completes with total = 2, processed = 1, skipped = 1,
failed = 0 -- the failure did not halt the scan and was counted as skipped. -/
theorem c2_witness :
    ∃ w', scanVault cfgScan wScanMix [["v", "a.pdf"], ["v", "b.pdf"]] false "t1" =
      (.ret ⟨2, 1, 1, 0⟩, w') := by
  obtain ⟨w', hw⟩ :=
    c2_theorem cfgScan wScanMix [["v", "a.pdf"], ["v", "b.pdf"]] false "t1" (by decide)
  have hout : convertOutcomes cfgScan false "t1" [["v", "a.pdf"], ["v", "b.pdf"]] wScanMix =
      [.ret false, .ret true] := by decide
  rw [hout] at hw
  have hstats : (⟨([PyResult.ret false, PyResult.ret true].length : Nat),
      [PyResult.ret false, PyResult.ret true].countP isRetTrue,
      (if false then 0 else [PyResult.ret false, PyResult.ret true].countP isRetFalse),
      (if false then [PyResult.ret false, PyResult.ret true].countP isRetFalse
       else 0)⟩ : ScanStats) = ⟨2, 1, 1, 0⟩ := by decide
  rw [hstats] at hw
  exact ⟨w', hw⟩

/-- Membership in the pre-sort tag accumulation, characterized by the three
sources of tags. -/
theorem mem_rawTags (rel : FsPath) (txt category : String) (t : String) :
    t ∈ rawTags rel txt category ↔
      ((∃ part ∈ rel.dropLast, normalizeTag part = t ∧ t ≠ "" ∧ t ∉ stoplist) ∨
       (t = category ∧ category ≠ "general") ∨
       (t = "notable-figure" ∧
         (notableFigures.any fun f => strContains (strLower txt) f) = true)) := by
  simp only [rawTags]
  have hfold : ∀ s, s ∈ rel.dropLast.filterMap (fun part =>
        let tag := normalizeTag part
        if tag ≠ "" ∧ tag ∉ stoplist then some tag else none) ↔
      (∃ part ∈ rel.dropLast, normalizeTag part = s ∧ s ≠ "" ∧ s ∉ stoplist) := by
    intro s
    simp only [List.mem_filterMap]
    constructor
    · rintro ⟨part, hpart, hsome⟩
      by_cases hcond : normalizeTag part ≠ "" ∧ normalizeTag part ∉ stoplist
      · rw [if_pos hcond] at hsome
        injection hsome with ht
        subst ht
        exact ⟨part, hpart, rfl, hcond.1, hcond.2⟩
      · rw [if_neg hcond] at hsome
        exact Option.noConfusion hsome
    · rintro ⟨part, hpart, ht, hne, hns⟩
      subst ht
      exact ⟨part, hpart, by rw [if_pos ⟨hne, hns⟩]⟩
  by_cases hfig : (notableFigures.any fun f => strContains (strLower txt) f) = true
  · rw [if_pos hfig]
    by_cases hcat : category ≠ "general"
    · rw [if_pos hcat]
      simp only [List.mem_append, List.mem_singleton, hfold t]
      constructor
      · rintro ((hA | hc) | hf)
        · exact Or.inl hA
        · exact Or.inr (Or.inl ⟨hc, hcat⟩)
        · exact Or.inr (Or.inr ⟨hf, hfig⟩)
      · rintro (hA | ⟨hc, -⟩ | ⟨hf, -⟩)
        · exact Or.inl (Or.inl hA)
        · exact Or.inl (Or.inr hc)
        · exact Or.inr hf
    · rw [if_neg hcat]
      simp only [List.mem_append, List.mem_singleton, hfold t]
      constructor
      · rintro (hA | hf)
        · exact Or.inl hA
        · exact Or.inr (Or.inr ⟨hf, hfig⟩)
      · rintro (hA | ⟨-, hcc⟩ | ⟨hf, -⟩)
        · exact Or.inl hA
        · exact absurd hcc hcat
        · exact Or.inr hf
  · rw [if_neg hfig]
    by_cases hcat : category ≠ "general"
    · rw [if_pos hcat]
      simp only [List.mem_append, List.mem_singleton, hfold t]
      constructor
      · rintro (hA | hc)
        · exact Or.inl hA
        · exact Or.inr (Or.inl ⟨hc, hcat⟩)
      · rintro (hA | ⟨hc, -⟩ | ⟨-, hff⟩)
        · exact Or.inl hA
        · exact Or.inr hc
        · exact absurd hff hfig
    · rw [if_neg hcat]
      simp only [hfold t]
      constructor
      · intro hA
        exact Or.inl hA
      · rintro (hA | ⟨-, hcc⟩ | ⟨-, hff⟩)
        · exact hA
        · exact absurd hcc hcat
        · exact absurd hff hfig

/-- C9: `_generate_tags` returns a sorted, duplicate-free list whose members
are exactly the normalized parent-folder segments that are nonempty and
outside the stoplist {knowledge, documents, files}, the category when it is
not "general", and the single sentinel "notable-figure" when some notable
figure occurs case-insensitively in the text; and two calls with identical
inputs return identical results. -/
theorem c9_theorem (rel : FsPath) (txt category : String) :
    List.Sorted (· ≤ ·) (generateTags rel txt category) ∧
    (generateTags rel txt category).Nodup ∧
    (∀ t, t ∈ generateTags rel txt category ↔
       ((∃ part ∈ rel.dropLast, normalizeTag part = t ∧ t ≠ "" ∧ t ∉ stoplist) ∨
        (t = category ∧ category ≠ "general") ∨
        (t = "notable-figure" ∧
          (notableFigures.any fun f => strContains (strLower txt) f) = true))) ∧
    generateTags rel txt category = generateTags rel txt category := by
  haveI : IsTotal String strLeP := ⟨strLeP_total⟩
  haveI : IsTrans String strLeP := ⟨strLeP_trans⟩
  refine ⟨?_, ?_, ?_, rfl⟩
  · exact (List.sorted_insertionSort strLeP _).imp (fun h => (strLe_iff _ _).mp h)
  · exact (List.perm_insertionSort strLeP _).nodup_iff.mpr (List.nodup_dedup _)
  · intro t
    unfold generateTags
    rw [(List.perm_insertionSort strLeP _).mem_iff, List.mem_dedup]
    exact mem_rawTags rel txt category t

end TaoBite
